import Mathlib

/-!
# Verification of pyglove's JSON conversion and callable-signature model

Shallow embedding of `pyglove/core/object_utils/json_conversion.py` and
`pyglove/core/typing/callable_signature.py`.

Python values in the pure JSON fragment (the values `to_json` / `from_json`
traverse structurally) are modelled by the inductive `PyVal`:
`None`, `bool`, `int`, `float`, `str`, `list`, `tuple` and `dict`.
Dictionaries are association lists of (key, value) pairs in insertion
order, with arbitrary `PyVal` keys (Python dict keys need not be strings,
and `to_json` passes them through unvalidated).  Floats only pass through
both conversions unchanged, so they are carried as an opaque bit-pattern
token.
-/
inductive PyVal where
  | null
  | bool (b : Bool)
  | int (n : Int)
  | float (bits : Nat)
  | str (s : String)
  | list (xs : List PyVal)
  | tuple (xs : List PyVal)
  | dict (kvs : List (PyVal × PyVal))
deriving Repr

/-- Source `JSONConvertible.TUPLE_MARKER`: marker (as the first element of a list)
for serializing tuples. -/
def TUPLE_MARKER : String := "__tuple__"

/-- Source `JSONConvertible.TYPE_NAME_KEY`: key in a serialized dict that represents
the class to restore. -/
def TYPE_NAME_KEY : String := "_type"

/-- Python's `key == '_type'` (or comparison of a dict key with any given
string): a non-string key never equals a string, a string key compares by
string equality. -/
def keyIs (k : PyVal) (s : String) : Bool :=
  match k with
  | .str t => t == s
  | _ => false

/-- Python's `s in json_value` membership test of a string key in a dict. -/
def hasKey (kvs : List (PyVal × PyVal)) (s : String) : Bool :=
  kvs.any (fun kv => keyIs kv.1 s)

/-- Python's `json_value[s]` on a dict, as an `Option` (`none` = `KeyError`). -/
def dictGetStr (kvs : List (PyVal × PyVal)) (s : String) : Option PyVal :=
  (kvs.find? (fun kv => keyIs kv.1 s)).map (·.2)

/-- Whether the first element of a list is the tuple marker string:
Python's `json_value and json_value[0] == JSONConvertible.TUPLE_MARKER`. -/
def headIsMarker (xs : List PyVal) : Bool :=
  match xs with
  | .str s :: _ => s == TUPLE_MARKER
  | _ => false

mutual

/-- Source `to_json` (json_conversion.py:252-293) restricted to the pure JSON value
fragment.  The `JSONConvertible` / `type` / function / method / fallback
branches of the full dispatch chain concern live Python objects outside this
fragment; they are modelled separately (`to_json_branch` for the dispatch
order, `function_from_json` etc. for the handlers). -/
def to_json : PyVal → PyVal
  | .null => .null
  | .bool b => .bool b
  | .int n => .int n
  | .float x => .float x
  | .str s => .str s
  | .tuple xs => .list (.str TUPLE_MARKER :: to_jsonList xs)
  | .list xs => .list (to_jsonList xs)
  | .dict kvs => .dict (to_jsonKvs kvs)

/-- Source `[to_json(item, **kwargs) for item in value]` -/
def to_jsonList : List PyVal → List PyVal
  | [] => []
  | x :: xs => to_json x :: to_jsonList xs

/-- Source `{k: to_json(v, **kwargs) for k, v in value.items()}` — keys pass through
unchanged and unvalidated. -/
def to_jsonKvs : List (PyVal × PyVal) → List (PyVal × PyVal)
  | [] => []
  | (k, v) :: kvs => (k, to_json v) :: to_jsonKvs kvs

end

/-- Errors (exceptions) raised by `from_json` within the pure fragment, plus
`typeDispatch`, which marks the branch where a dict carrying the `_type` key
is delegated to `_type_from_json` / `_function_from_json` / `_method_from_json`
or the type registry: those reconstruct live Python objects outside the pure
value fragment modelled by `PyVal` (they are modelled separately where a claim
needs them). -/
inductive JErr where
  | malformedTuple
  | typeDispatch (typeNameValue : PyVal)
  | keyError (key : String)
  | notAString (key : String)
  | assertionFailed
deriving Repr

mutual

/-- Source `from_json` (json_conversion.py:296-331).  The list case is split on
empty/non-empty (`headIsMarker` is false on an empty list, so both subcases
of `.list []` collapse to the plain list comprehension); on a marker-headed
list, `len(json_value) < 2` is exactly `rest.isEmpty`, and the remainder
`json_value[1:]` is `rest`. -/
def from_json : PyVal → Except JErr PyVal
  | .list (xs@(_ :: rest)) =>
    if headIsMarker xs then
      if rest.isEmpty then .error .malformedTuple
      else (from_jsonList rest).bind (fun vs => .ok (.tuple vs))
    else (from_jsonList xs).bind (fun vs => .ok (.list vs))
  | .list [] => (from_jsonList []).bind (fun vs => .ok (.list vs))
  | .dict kvs =>
    if hasKey kvs TYPE_NAME_KEY then
      .error (.typeDispatch ((dictGetStr kvs TYPE_NAME_KEY).getD .null))
    else (from_jsonKvs kvs).bind (fun ws => .ok (.dict ws))
  | v => .ok v

/-- Source `[from_json(v) for v in l]`, propagating exceptions left to right. -/
def from_jsonList : List PyVal → Except JErr (List PyVal)
  | [] => .ok []
  | x :: xs =>
    (from_json x).bind (fun v => (from_jsonList xs).bind (fun vs => .ok (v :: vs)))

/-- Source `{k: from_json(v) for k, v in json_value.items()}` -/
def from_jsonKvs : List (PyVal × PyVal) → Except JErr (List (PyVal × PyVal))
  | [] => .ok []
  | (k, v) :: kvs =>
    (from_json v).bind (fun w => (from_jsonKvs kvs).bind (fun ws => .ok ((k, w) :: ws)))

end

/-!
## Round-trip (C1)

`from_json (to_json x)` recovers `x` for pure-primitive container trees,
except at three kinds of nodes where the wire format is ambiguous or
reserved: an empty tuple serializes to `['__tuple__']`, which
`from_json` rejects as a malformed tuple; a list whose first element is the
marker string `'__tuple__'` serializes to something `from_json` reads back
as a tuple; and a dict containing the reserved `'_type'` key is routed to
the type-dispatch machinery instead of being read back as a plain dict.
`goodVal` carves out the values free of all three. -/
/-- A dict key that reads back as itself: a string other than `'_type'`. -/
def goodKey (k : PyVal) : Bool :=
  match k with
  | .str s => !(s == TYPE_NAME_KEY)
  | _ => false

mutual

def goodVal : PyVal → Bool
  | .null => true
  | .bool _ => true
  | .int _ => true
  | .float _ => true
  | .str _ => true
  | .list xs => !headIsMarker xs && goodList xs
  | .tuple xs => !xs.isEmpty && goodList xs
  | .dict kvs => goodKvs kvs

def goodList : List PyVal → Bool
  | [] => true
  | x :: xs => goodVal x && goodList xs

def goodKvs : List (PyVal × PyVal) → Bool
  | [] => true
  | (k, v) :: kvs => goodKey k && goodVal v && goodKvs kvs

end

/-!
## Type Registry (C2, C6)

`_TypeRegistry` (json_conversion.py:42-91) stores `_type_to_cls_map`, a
Python dict from type-name strings to classes.  It is modelled as an
insertion-ordered association list (Python dicts preserve insertion order;
keys stay unique because all writes go through `register`).  `α` is the type
of registered class handles. -/
/-- The `KeyError` raised by `_TypeRegistry.register` on a duplicate
type name without override permission. -/
inductive RegError where
  | KeyError (type_name : String)
deriving Repr, DecidableEq

/-- Python dict assignment `m[k] = v`: replaces the value at an existing key
in place (keeping its position in the iteration order), or appends a new
binding at the end. -/
def dictSet {α : Type} (m : List (String × α)) (k : String) (v : α) :
    List (String × α) :=
  if m.any (fun kv => kv.1 == k) then
    m.map (fun kv => if kv.1 == k then (k, v) else kv)
  else m ++ [(k, v)]

/-- Source `_TypeRegistry.register` (json_conversion.py:57-78): raises `KeyError`
when the name is taken and `override_existing` is false (the raise happens
before any mutation, so the registry is returned unchanged alongside the
error); otherwise stores the binding. -/
def register {α : Type} (reg : List (String × α)) (type_name : String)
    (cls : α) (override_existing : Bool) : Option RegError × List (String × α) :=
  if (reg.any (fun kv => kv.1 == type_name)) && !override_existing then
    (some (.KeyError type_name), reg)
  else (Option.none, dictSet reg type_name cls)

/-- Source `_TypeRegistry.is_registered` (json_conversion.py:80-82). -/
def is_registered {α : Type} (reg : List (String × α)) (type_name : String) : Bool :=
  reg.any (fun kv => kv.1 == type_name)

/-- Source `_TypeRegistry.class_from_typename` (json_conversion.py:84-87):
`self._type_to_cls_map.get(type_name, None)`. -/
def class_from_typename {α : Type} (reg : List (String × α)) (type_name : String) :
    Option α :=
  (reg.find? (fun kv => kv.1 == type_name)).map (·.2)

/-- A `JSONConvertible` subclass as seen by `__init_subclass__`
(json_conversion.py:239-244): whether `inspect.isabstract(cls)` holds, the
`auto_register` class attribute, the optional `type_name` class attribute
(read by `getattr(cls, 'type_name', _type_name(cls))`), and the module and
qualified name from which `_type_name` builds the fully-qualified name. -/
structure ClsDef where
  is_abstract : Bool
  auto_register : Bool
  type_name_attr : Option String
  module_name : String
  qualname : String
deriving Repr, DecidableEq

/-- Source `_type_name` (json_conversion.py:339-341):
`f'{type_or_function.__module__}.{type_or_function.__qualname__}'`. -/
def type_name_of (c : ClsDef) : String := c.module_name ++ "." ++ c.qualname

/-- Source `JSONConvertible.__init_subclass__` (json_conversion.py:239-244): the
class-definition-time auto-registration hook.  Concrete classes with
`auto_register` set register under `getattr(cls, 'type_name', _type_name(cls))`,
always with `override_existing=True`. -/
def init_subclass (reg : List (String × ClsDef)) (c : ClsDef) :
    List (String × ClsDef) :=
  if !c.is_abstract && c.auto_register then
    (register reg (c.type_name_attr.getD (type_name_of c)) c true).2
  else reg

/-- A concrete auto-registering class carrying a `type_name` class
attribute, used to refute C6 as stated. -/
def customNamedCls : ClsDef :=
  ⟨false, true, some "my_alias", "mymod", "MyClass"⟩

/-!
## Serialization dispatch order (C3)

`to_json` (json_conversion.py:270-293) dispatches on the runtime type of its
input through a chain of `isinstance` / `inspect` checks.  A runtime value is
abstracted by the outcomes of those nine checks (categories may overlap: e.g.
a class can subclass both `tuple` and `JSONConvertible`), and the chain is
modelled as a branch selector. -/
/-- The `isinstance` / `inspect` tests of `to_json`, in source order of
appearance: `isinstance(value, (type(None), bool, int, float, str))`,
`isinstance(value, JSONConvertible)`, `isinstance(value, tuple)`,
`isinstance(value, list)`, `isinstance(value, dict)`,
`isinstance(value, type)`, `inspect.isbuiltin(value)`,
`inspect.isfunction(value)`, `inspect.ismethod(value)`. -/
structure RuntimeValue where
  is_none_bool_int_float_str : Bool
  is_json_convertible : Bool
  is_tuple : Bool
  is_list : Bool
  is_dict : Bool
  is_type : Bool
  is_builtin : Bool
  is_function : Bool
  is_method : Bool
deriving Repr, DecidableEq

/-- The handler ultimately chosen by `to_json`'s dispatch chain. -/
inductive DispatchBranch where
  | primitivePass
  | convertibleToJson
  | tupleEncode
  | listEncode
  | dictEncode
  | typeEncode
  | builtinFunctionEncode
  | functionEncode
  | methodEncode
  | converterFallback
deriving Repr, DecidableEq

/-- The `if/elif` chain of `to_json` (json_conversion.py:270-293), branch by
branch in source order; everything falling through reaches the pluggable
`TYPE_CONVERTER` fallback (which serializes the converter output or raises). -/
def to_json_branch (v : RuntimeValue) : DispatchBranch :=
  if v.is_none_bool_int_float_str then .primitivePass
  else if v.is_json_convertible then .convertibleToJson
  else if v.is_tuple then .tupleEncode
  else if v.is_list then .listEncode
  else if v.is_dict then .dictEncode
  else if v.is_type then .typeEncode
  else if v.is_builtin then .builtinFunctionEncode
  else if v.is_function then .functionEncode
  else if v.is_method then .methodEncode
  else .converterFallback

/-- Whether a runtime value belongs to the category a branch handles. -/
def branchMatches (v : RuntimeValue) : DispatchBranch → Bool
  | .primitivePass => v.is_none_bool_int_float_str
  | .convertibleToJson => v.is_json_convertible
  | .tupleEncode => v.is_tuple
  | .listEncode => v.is_list
  | .dictEncode => v.is_dict
  | .typeEncode => v.is_type
  | .builtinFunctionEncode => v.is_builtin
  | .functionEncode => v.is_function
  | .methodEncode => v.is_method
  | .converterFallback => true

/-- The precedence order stated by the spec: exact primitives first, then
convertible objects, then tuple before list, then dict, then type, then
builtin function, then plain function, then method, then the pluggable
fallback. -/
def spec_dispatch_order : List DispatchBranch :=
  [.primitivePass, .convertibleToJson, .tupleEncode, .listEncode, .dictEncode,
   .typeEncode, .builtinFunctionEncode, .functionEncode, .methodEncode]

/-- The branch the spec predicts: the first category in `spec_dispatch_order`
the value belongs to, the fallback when none matches. -/
def spec_first_match (v : RuntimeValue) : DispatchBranch :=
  match spec_dispatch_order.find? (fun b => branchMatches v b) with
  | some b => b
  | Option.none => .converterFallback

/-!
## Function deserialization (C4)

`_function_from_json` (json_conversion.py:450-463).  The outside-world pieces
are abstracted as follows: `base64.decodebytes` and `marshal.loads` are
library decoders treated as black boxes, modelled as injective tags wrapping
the text they decode; `types.FunctionType(code=..., globals=..., argdefs=...)`
is modelled by the record `FunResult.constructed` of its three arguments.
The source passes `globals=globals()` — the (non-empty) module-level global
namespace of the deserializing module `json_conversion` — which
`GlobalsChoice` distinguishes from a fresh empty namespace. -/
/-- Which global namespace a reconstructed function is bound in. -/
inductive GlobalsChoice where
  | callerModuleGlobals
  | freshEmpty
deriving Repr, DecidableEq

/-- Result of `base64.decodebytes` on the utf-8 encoded code text,
abstracted as a tag carrying the text. -/
structure DecodedBytes where
  b64Text : String
deriving Repr, DecidableEq

/-- Result of `marshal.loads`, abstracted as a tag on the decoded bytes. -/
structure CodeObj where
  blob : DecodedBytes
deriving Repr, DecidableEq

def base64_decodebytes (s : String) : DecodedBytes := ⟨s⟩

def marshal_loads (b : DecodedBytes) : CodeObj := ⟨b⟩

/-- What `_function_from_json` returns: either a function object freshly
constructed from a code blob (`types.FunctionType(...)`), or the symbol the
dotted name resolves to via `_load_symbol`. -/
inductive FunResult where
  | constructed (code : CodeObj) (globalsUsed : GlobalsChoice) (argdefs : PyVal)
  | loadedByName (name : String)
deriving Repr

/-- Source `_function_from_json` (json_conversion.py:450-463).  `json_value['name']`
is read first (`KeyError` when absent); with a `'code'` entry the code text is
base64-decoded and unmarshalled and the function is built with
`globals=globals()` and `argdefs=from_json(json_value['defaults'])`; without
one, the dotted name is resolved instead (`_load_symbol` on a non-string
raises, modelled as `notAString`). -/
def function_from_json (json_value : List (PyVal × PyVal)) : Except JErr FunResult :=
  match dictGetStr json_value "name" with
  | Option.none => .error (.keyError "name")
  | some function_name =>
    match dictGetStr json_value "code" with
    | some codeVal =>
      match codeVal with
      | .str codeText =>
        match dictGetStr json_value "defaults" with
        | Option.none => .error (.keyError "defaults")
        | some defaultsJson =>
          (from_json defaultsJson).bind (fun defaults =>
            .ok (.constructed (marshal_loads (base64_decodebytes codeText))
              .callerModuleGlobals defaults))
      | _ => .error (.notAString "code")
    | Option.none =>
      match function_name with
      | .str n => .ok (.loadedByName n)
      | _ => .error (.notAString "name")

/-- A concrete `{"_type": "function", ...}` entry with embedded code. -/
def fnJson : List (PyVal × PyVal) :=
  [(.str "_type", .str "function"), (.str "name", .str "foo"),
   (.str "code", .str "BASE64BLOB"), (.str "defaults", .null)]

/-!
## Signature model (C5, C7)

`callable_signature.py`.  The collaborator `class_schema.ValueSpec` is not
part of the sample; per the spec (§6) it is consumed here only through
`.annotation`, `.has_default` and `.default`. -/
/-- Modelled from the spec: the collaborator `class_schema.ValueSpec`
interface — `.annotation` (where `none` plays `object_utils.MISSING_VALUE`),
`.has_default` and `.default`; annotation and default-value objects are
abstracted as opaque `Nat` tokens, and value specs compare by their own
(structural) equality. -/
structure ValueSpec where
  annot : Option Nat
  has_default : Bool
  default : Nat
deriving Repr, DecidableEq

/-- Source `CallableType` (callable_signature.py:43-49). -/
inductive CallableType where
  | FUNCTION
  | METHOD
deriving Repr, DecidableEq

/-- Source `Argument` (callable_signature.py:26-40): a dataclass, comparing by
`name` and `value_spec`. -/
structure Argument where
  name : String
  value_spec : ValueSpec
deriving Repr, DecidableEq

/-- Source `Signature` (callable_signature.py:52-89): the fields its constructor
assigns (`named_args`, `arg_names`, `id`, `has_varargs` … are derived
properties). -/
structure Signature where
  callable_type : CallableType
  name : String
  module_name : String
  qualname : String
  args : List Argument
  kwonlyargs : List Argument
  varargs : Option Argument
  varkw : Option Argument
  return_value : Option ValueSpec
deriving Repr, DecidableEq

/-- Source `Signature.__eq__` (callable_signature.py:143-155): after the
`isinstance` guard (both sides are Signatures here) and the identity
short-circuit (subsumed by reflexivity of the structural test), it compares
callable_type, name, qualname, module_name, args, kwonlyargs, varargs,
varkw — and `return_value`. -/
def sig_eq (self other : Signature) : Bool :=
  self.callable_type == other.callable_type &&
  self.name == other.name &&
  self.qualname == other.qualname &&
  self.module_name == other.module_name &&
  (self.args == other.args && self.kwonlyargs == other.kwonlyargs) &&
  self.varargs == other.varargs && self.varkw == other.varkw &&
  self.return_value == other.return_value

/-- Two signatures agreeing on every field C5 lists, differing only in
`return_value`. -/
def sigA : Signature :=
  ⟨.FUNCTION, "f", "m", "f", [⟨"a", ⟨Option.none, false, 0⟩⟩], [],
   Option.none, Option.none, Option.none⟩

def sigB : Signature :=
  ⟨.FUNCTION, "f", "m", "f", [⟨"a", ⟨Option.none, false, 0⟩⟩], [],
   Option.none, Option.none, some ⟨Option.none, false, 0⟩⟩

/-- Source `_append_arg` (callable_signature.py:242-254): renders one parameter
declaration string and the `exec_locals` bindings it seeds
(`_annotation_<name>` mapped to the annotation object and, when a default is
emitted, `_default_<name>` mapped to `arg_spec.default`).  A default is
emitted only for unprefixed parameters, when forced or when the spec has
one. -/
def append_arg (arg_name : String) (arg_spec : ValueSpec)
    (force_missing_as_default : Bool) (argPfx : String) :
    String × List (String × Nat) :=
  let s := argPfx ++ arg_name
  let sl : String × List (String × Nat) :=
    match arg_spec.annot with
    | some a => (s ++ ": _annotation_" ++ arg_name, [("_annotation_" ++ arg_name, a)])
    | Option.none => (s, [])
  if argPfx = "" && (force_missing_as_default || arg_spec.has_default) then
    (sl.1 ++ " = _default_" ++ arg_name,
      sl.2 ++ [("_default_" ++ arg_name, arg_spec.default)])
  else sl

/-- The positional-argument loop of `make_function`
(callable_signature.py:256-261): `has_previous_default` starts false; each
argument is rendered with `force_missing_as_default` set to the flag's value
*before* it, and the flag is set once an argument's spec has a default. -/
def positional_decls (args : List Argument) (has_previous_default : Bool) :
    List (String × List (String × Nat)) :=
  match args with
  | [] => []
  | arg :: rest =>
    append_arg arg.name arg.value_spec has_previous_default ""
      :: positional_decls rest (has_previous_default || arg.value_spec.has_default)

/-- Modelled from the spec: `object_utils.make_function` (not in the sample;
spec §4.4 `synthesize`) compiles a callable from a name, the rendered
argument declarations, body lines and the seeded namespaces.  It is modelled
as the record of what it is handed, carrying the identity metadata that
`Signature.make_function` overwrites afterwards
(callable_signature.py:285-287). -/
structure MadeFunction where
  arg_decls : List String
  exec_locals_added : List (String × Nat)
  body : List String
  fname : String
  fmodule : String
  fqualname : String
deriving Repr, DecidableEq

/-- Source `Signature.make_function` (callable_signature.py:230-288): positional
arguments first (with the default-forcing flag threaded through), then
`*varargs` — or a bare `*` separator when keyword-only arguments exist
without varargs — then keyword-only arguments, then `**varkw`; finally
`fn.__module__`, `fn.__name__`, `fn.__qualname__` are overwritten from the
signature. -/
def make_function (sig : Signature) (body : List String) : MadeFunction :=
  let pos := positional_decls sig.args false
  let varp : List (String × List (String × Nat)) :=
    match sig.varargs with
    | some va => [append_arg va.name va.value_spec false "*"]
    | Option.none => if sig.kwonlyargs.isEmpty then [] else [("*", [])]
  let kwos := sig.kwonlyargs.map
    (fun arg => append_arg arg.name arg.value_spec false "")
  let varkwd : List (String × List (String × Nat)) :=
    match sig.varkw with
    | some vk => [append_arg vk.name vk.value_spec false "**"]
    | Option.none => []
  let all := pos ++ varp ++ kwos ++ varkwd
  ⟨all.map Prod.fst, (all.map Prod.snd).flatten, body,
   sig.name, sig.module_name, sig.qualname⟩

/-- A default `Argument` used only as the out-of-range value of `List.getD`. -/
def anArg : Argument := ⟨"", ⟨Option.none, false, 0⟩⟩

/-- The signature `Signature.from_callable` yields for
`def f(a, b=2, *c, d, **e)` in a module `m`: positional `a` (no default,
no annotation) and `b` (default, annotation-free value spec, token 2 for the
default object), var-positional `c`, keyword-only `d`, var-keyword `e`. -/
def sigF : Signature :=
  ⟨.FUNCTION, "f", "m", "f",
   [⟨"a", ⟨Option.none, false, 0⟩⟩, ⟨"b", ⟨Option.none, true, 2⟩⟩],
   [⟨"d", ⟨Option.none, false, 0⟩⟩],
   some ⟨"c", ⟨Option.none, false, 0⟩⟩,
   some ⟨"e", ⟨Option.none, false, 0⟩⟩,
   Option.none⟩

/-- A signature whose first positional argument has a default and whose
second does not, exercising the default-forcing rule of C7. -/
def sigW : Signature :=
  ⟨.FUNCTION, "g", "m", "g",
   [⟨"a", ⟨Option.none, true, 1⟩⟩, ⟨"b", ⟨Option.none, false, 0⟩⟩],
   [], Option.none, Option.none, Option.none⟩

/-!
## Symbol resolution (C8)

`_load_symbol` (json_conversion.py:398-443).  The function operates on the
segments of `type_name.split('.')`; the import itself and the `getattr`
walk are outside the pure fragment, so what is modelled is the split the
code computes: which segments form the module name handed to
`importlib.import_module` and which segments are walked by `getattr`.
Python's `name[0].isupper()` raises `IndexError` on an empty segment, so
theorems carry the hypothesis that all segments are non-empty. -/
/-- Source `name[0].isupper()` on a path segment (false on the empty string, which
the source never reaches for well-formed dotted names). -/
def capFirst (s : String) : Bool :=
  match s.data with
  | [] => false
  | c :: _ => c.isUpper

/-- The scan `for i, name in enumerate(maybe_modules): if name[0].isupper():
module_end_pos = i; break` (json_conversion.py:421-424). -/
def module_end_pos : List String → Option Nat
  | [] => Option.none
  | s :: rest =>
    if capFirst s then some 0
    else (module_end_pos rest).map (· + 1)

/-- The split `_load_symbol` computes (json_conversion.py:400-432):
`*maybe_modules, symbol_name = type_name.split('.')` peels off the LAST
segment first; `module_end_pos` is the first index in `maybe_modules` whose
segment starts with an upper-case letter; the module is the join of the
segments before it (all of `maybe_modules` when none is capitalized) and the
attribute chain walked on the imported module is the remaining parent
symbols followed by `symbol_name`.  Returns (module segments, attribute
chain). -/
def load_symbol_split (segs : List String) : List String × List String :=
  match module_end_pos segs.dropLast with
  | Option.none => (segs.dropLast, [segs.getLastD ""])
  | some k => (segs.dropLast.take k, segs.dropLast.drop k ++ [segs.getLastD ""])

/-- The module name handed to `importlib.import_module`:
`'.'.join(...)` of the module segments. -/
def load_symbol_module_name (segs : List String) : String :=
  String.intercalate "." (load_symbol_split segs).1

/-- The split in the words of the spec (§4.3): scan ALL segments left to
right for the first one whose first character is upper-case; it starts the
class/attribute chain and the segments before it are imported as the module;
when no segment is capitalized, the final segment alone is looked up as an
attribute on the module formed by the rest. -/
def spec_symbol_split (segs : List String) : List String × List String :=
  match module_end_pos segs with
  | some k => (segs.take k, segs.drop k)
  | Option.none => (segs.dropLast, [segs.getLastD ""])

/-!
## Default `JSONConvertible.from_json` (C10)
-/
/-- Source `cls(**init_args)`: the instance the default classmethod constructs,
modelled as the record of the keyword arguments handed to the class
constructor. -/
structure ConstructedObj where
  init_args : List (PyVal × PyVal)
deriving Repr

/-- Shape test backing the `assert isinstance(json_value, dict)`. -/
def PyVal.is_dict : PyVal → Bool
  | .dict _ => true
  | _ => false

/-- Source `JSONConvertible.from_json` (json_conversion.py:149-166), the default
classmethod: `del kwargs` discards the keyword flags; the input must be a
dict (`assert`, modelled as `assertionFailed`); `init_args` maps every key
except `TYPE_NAME_KEY` to the recursive deserialization of its value, and
the instance is `cls(**init_args)`. -/
def JSONConvertible_from_json (kwargs : List (String × PyVal)) (json_value : PyVal) :
    Except JErr ConstructedObj :=
  match json_value with
  | .dict kvs =>
    (from_jsonKvs (kvs.filter (fun kv => !keyIs kv.1 TYPE_NAME_KEY))).bind
      (fun ps => .ok ⟨ps⟩)
  | _ => .error .assertionFailed

/-!
### Equation lemmas

`from_json` and its two comprehension companions are compiled by
well-founded recursion, so their defining equations are restated here as
propositional lemmas (proved by `rw` with the generated equations) and all
later proofs and evaluations go through these, never through definitional
unfolding. -/
theorem from_json_null : from_json .null = .ok .null := by
  rw [from_json] <;> simp

theorem from_json_bool (b : Bool) : from_json (.bool b) = .ok (.bool b) := by
  rw [from_json] <;> simp

theorem from_json_int (n : Int) : from_json (.int n) = .ok (.int n) := by
  rw [from_json] <;> simp

theorem from_json_float (x : Nat) : from_json (.float x) = .ok (.float x) := by
  rw [from_json] <;> simp

theorem from_json_str (s : String) : from_json (.str s) = .ok (.str s) := by
  rw [from_json] <;> simp

theorem from_json_tuple_passthrough (xs : List PyVal) :
    from_json (.tuple xs) = .ok (.tuple xs) := by
  rw [from_json] <;> simp

theorem from_jsonList_nil : from_jsonList [] = .ok [] := by rw [from_jsonList]

theorem from_jsonList_cons (x : PyVal) (xs : List PyVal) :
    from_jsonList (x :: xs) =
      (from_json x).bind (fun v => (from_jsonList xs).bind (fun vs => .ok (v :: vs))) := by
  rw [from_jsonList]

theorem from_jsonKvs_nil : from_jsonKvs [] = .ok [] := by rw [from_jsonKvs]

theorem from_jsonKvs_cons (k v : PyVal) (kvs : List (PyVal × PyVal)) :
    from_jsonKvs ((k, v) :: kvs) =
      (from_json v).bind (fun w => (from_jsonKvs kvs).bind (fun ws => .ok ((k, w) :: ws))) := by
  rw [from_jsonKvs]

theorem from_json_list_nil : from_json (.list []) = .ok (.list []) := by
  rw [from_json, from_jsonList]; rfl

theorem from_json_list_cons (x : PyVal) (rest : List PyVal) :
    from_json (.list (x :: rest)) =
      if headIsMarker (x :: rest) then
        if rest.isEmpty then .error .malformedTuple
        else (from_jsonList rest).bind (fun vs => .ok (.tuple vs))
      else (from_jsonList (x :: rest)).bind (fun vs => .ok (.list vs)) := by
  rw [from_json]

theorem from_json_dict_eq (kvs : List (PyVal × PyVal)) :
    from_json (.dict kvs) =
      if hasKey kvs TYPE_NAME_KEY then
        .error (.typeDispatch ((dictGetStr kvs TYPE_NAME_KEY).getD .null))
      else (from_jsonKvs kvs).bind (fun ws => .ok (.dict ws)) := by
  rw [from_json]

/-- Structural induction principle for `PyVal` with pointwise hypotheses for
the container constructors. -/
theorem pyval_ind (P : PyVal → Prop)
    (hnull : P .null) (hbool : ∀ b, P (.bool b)) (hint : ∀ n, P (.int n))
    (hfloat : ∀ x, P (.float x)) (hstr : ∀ s, P (.str s))
    (hlist : ∀ xs, (∀ x ∈ xs, P x) → P (.list xs))
    (htuple : ∀ xs, (∀ x ∈ xs, P x) → P (.tuple xs))
    (hdict : ∀ kvs, (∀ kv ∈ kvs, P kv.2) → P (.dict kvs)) :
    ∀ v, P v
  | .null => hnull
  | .bool b => hbool b
  | .int n => hint n
  | .float x => hfloat x
  | .str s => hstr s
  | .list xs => hlist xs (fun x _ =>
      pyval_ind P hnull hbool hint hfloat hstr hlist htuple hdict x)
  | .tuple xs => htuple xs (fun x _ =>
      pyval_ind P hnull hbool hint hfloat hstr hlist htuple hdict x)
  | .dict kvs => hdict kvs (fun kv _ =>
      pyval_ind P hnull hbool hint hfloat hstr hlist htuple hdict kv.2)
termination_by v => sizeOf v
decreasing_by
  · have := List.sizeOf_lt_of_mem (by assumption : x ∈ xs); simp at *; omega
  · have := List.sizeOf_lt_of_mem (by assumption : x ∈ xs); simp at *; omega
  · have := List.sizeOf_lt_of_mem (by assumption : kv ∈ kvs)
    obtain ⟨k, v⟩ := kv; simp at *; omega

theorem to_jsonList_eq_map (xs : List PyVal) :
    to_jsonList xs = xs.map to_json := by
  induction xs with
  | nil => simp [to_jsonList]
  | cons x rest ih => simp [to_jsonList, ih]

theorem to_jsonKvs_eq_map (kvs : List (PyVal × PyVal)) :
    to_jsonKvs kvs = kvs.map (fun kv => (kv.1, to_json kv.2)) := by
  induction kvs with
  | nil => simp [to_jsonKvs]
  | cons kv rest ih => obtain ⟨k, v⟩ := kv; simp [to_jsonKvs, ih]

theorem to_jsonList_isEmpty (xs : List PyVal) :
    (to_jsonList xs).isEmpty = xs.isEmpty := by
  cases xs <;> simp [to_jsonList]

theorem headIsMarker_to_jsonList (xs : List PyVal) :
    headIsMarker (to_jsonList xs) = headIsMarker xs := by
  match xs with
  | [] => simp [to_jsonList]
  | x :: rest => cases x <;> simp [to_jsonList, to_json, headIsMarker]

theorem hasKey_to_jsonKvs (kvs : List (PyVal × PyVal)) (s : String) :
    hasKey (to_jsonKvs kvs) s = hasKey kvs s := by
  simp [hasKey, to_jsonKvs_eq_map, List.any_map, Function.comp_def]

theorem goodKvs_no_type_key (kvs : List (PyVal × PyVal))
    (h : goodKvs kvs = true) : hasKey kvs TYPE_NAME_KEY = false := by
  induction kvs with
  | nil => simp [hasKey]
  | cons kv rest ih =>
    obtain ⟨k, v⟩ := kv
    simp [goodKvs, Bool.and_eq_true] at h
    have hk : keyIs k TYPE_NAME_KEY = false := by
      cases k <;> simp_all [goodKey, keyIs]
    have hr := ih h.2
    simp [hasKey, hk] at hr ⊢
    exact hr

theorem from_to_jsonList_of (xs : List PyVal)
    (IH : ∀ x ∈ xs, goodVal x = true → from_json (to_json x) = Except.ok x)
    (h : goodList xs = true) : from_jsonList (to_jsonList xs) = Except.ok xs := by
  induction xs with
  | nil => simp [to_jsonList, from_jsonList_nil]
  | cons x rest ih =>
    simp [goodList, Bool.and_eq_true] at h
    simp [to_jsonList, from_jsonList_cons, IH x (by simp) h.1,
      ih (fun y hy => IH y (by simp [hy])) h.2, Except.bind]

theorem from_to_jsonKvs_of (kvs : List (PyVal × PyVal))
    (IH : ∀ kv ∈ kvs, goodVal kv.2 = true → from_json (to_json kv.2) = Except.ok kv.2)
    (h : goodKvs kvs = true) : from_jsonKvs (to_jsonKvs kvs) = Except.ok kvs := by
  induction kvs with
  | nil => simp [to_jsonKvs, from_jsonKvs_nil]
  | cons kv rest ih =>
    obtain ⟨k, v⟩ := kv
    simp [goodKvs, Bool.and_eq_true] at h
    simp [to_jsonKvs, from_jsonKvs_cons, IH (k, v) (by simp) h.1.2,
      ih (fun kw hkw => IH kw (by simp [hkw])) h.2, Except.bind]

theorem from_to_json_list (xs : List PyVal)
    (IH : ∀ x ∈ xs, goodVal x = true → from_json (to_json x) = Except.ok x) :
    goodVal (.list xs) = true → from_json (to_json (.list xs)) = Except.ok (.list xs) := by
  intro h
  simp [goodVal, Bool.and_eq_true] at h
  have hfl := from_to_jsonList_of xs IH h.2
  cases xs with
  | nil => simp [to_json, to_jsonList, from_json_list_nil]
  | cons x rest =>
    have hm : headIsMarker (to_jsonList (x :: rest)) = false := by
      rw [headIsMarker_to_jsonList]; exact h.1
    simp only [to_jsonList] at hm hfl
    simp [to_json, to_jsonList, from_json_list_cons, hm, hfl, Except.bind]

theorem from_to_json_tuple (xs : List PyVal)
    (IH : ∀ x ∈ xs, goodVal x = true → from_json (to_json x) = Except.ok x) :
    goodVal (.tuple xs) = true → from_json (to_json (.tuple xs)) = Except.ok (.tuple xs) := by
  intro h
  simp [goodVal, Bool.and_eq_true] at h
  have hfl := from_to_jsonList_of xs IH h.2
  have hm : headIsMarker (.str TUPLE_MARKER :: to_jsonList xs) = true := by
    simp [headIsMarker]
  have hne : (to_jsonList xs).isEmpty = false := by
    rw [to_jsonList_isEmpty]; simpa using h.1
  simp [to_json, from_json_list_cons, hm, hne, hfl, Except.bind]

theorem from_to_json_dict (kvs : List (PyVal × PyVal))
    (IH : ∀ kv ∈ kvs, goodVal kv.2 = true → from_json (to_json kv.2) = Except.ok kv.2) :
    goodVal (.dict kvs) = true → from_json (to_json (.dict kvs)) = Except.ok (.dict kvs) := by
  intro h
  simp [goodVal] at h
  have hfk := from_to_jsonKvs_of kvs IH h
  have hnk : hasKey (to_jsonKvs kvs) TYPE_NAME_KEY = false := by
    rw [hasKey_to_jsonKvs]; exact goodKvs_no_type_key kvs h
  simp [to_json, from_json_dict_eq, hnk, hfk, Except.bind]

theorem from_to_json : ∀ (v : PyVal), goodVal v = true →
    from_json (to_json v) = Except.ok v :=
  pyval_ind (fun v => goodVal v = true → from_json (to_json v) = Except.ok v)
    (fun _ => by rw [to_json]; exact from_json_null)
    (fun b _ => by rw [to_json]; exact from_json_bool b)
    (fun n _ => by rw [to_json]; exact from_json_int n)
    (fun x _ => by rw [to_json]; exact from_json_float x)
    (fun s _ => by rw [to_json]; exact from_json_str s)
    from_to_json_list from_to_json_tuple from_to_json_dict

/-- C1 (counterexample): the round-trip fails at the empty tuple.
`to_json(())` yields `['__tuple__']`, which `from_json` rejects with a
`ValueError` (malformed tuple) instead of returning `()`. -/
theorem C1_roundtrip_counterexample :
    to_json (.tuple []) = .list [.str "__tuple__"] ∧
    from_json (to_json (.tuple [])) = .error .malformedTuple ∧
    from_json (to_json (.tuple [])) ≠ .ok (.tuple []) := by
  have h1 : to_json (.tuple []) = .list [.str "__tuple__"] := rfl
  have h2 : from_json (.list [.str "__tuple__"]) = .error .malformedTuple := by
    rw [from_json_list_cons]; simp [headIsMarker, TUPLE_MARKER]
  refine ⟨h1, by rw [h1, h2], by rw [h1, h2]; simp⟩

/-- C1 (amended): `from_json (to_json x) = x` for every value built from
primitives (None, bool, int, float, str), lists, tuples and string-keyed
dicts, *provided* the value contains no empty tuple, no list whose first
element is the reserved marker string `'__tuple__'`, and no dict carrying
the reserved `'_type'` key (`goodVal`).  Equality of the `PyVal` trees in
particular preserves the tuple-vs-list container kind. -/
theorem C1_roundtrip (v : PyVal) (h : goodVal v = true) :
    from_json (to_json v) = Except.ok v :=
  from_to_json v h

/-- Witness for C1 at a concrete nested value. -/
theorem C1_roundtrip_witness :
    goodVal (.dict [(.str "a", .tuple [.int 1, .list [.str "x", .null]]),
      (.str "b", .bool true)]) = true ∧
    from_json (to_json (.dict [(.str "a", .tuple [.int 1, .list [.str "x", .null]]),
      (.str "b", .bool true)])) =
      Except.ok (.dict [(.str "a", .tuple [.int 1, .list [.str "x", .null]]),
        (.str "b", .bool true)]) :=
  ⟨rfl, C1_roundtrip (.dict [(.str "a", .tuple [.int 1, .list [.str "x", .null]]),
      (.str "b", .bool true)]) rfl⟩

/-- C9: `to_json` on a dict serializes only the values: the result is a dict
with exactly the keys of the input in order, each key passed through
unchanged and unvalidated (keys are arbitrary `PyVal`s, so non-string keys
are accepted), and each value replaced by its serialization. -/
theorem C9_to_json_dict (kvs : List (PyVal × PyVal)) :
    to_json (.dict kvs) = .dict (kvs.map (fun kv => (kv.1, to_json kv.2))) ∧
    (to_jsonKvs kvs).map Prod.fst = kvs.map Prod.fst := by
  constructor
  · rw [show to_json (.dict kvs) = .dict (to_jsonKvs kvs) from rfl, to_jsonKvs_eq_map]
  · rw [to_jsonKvs_eq_map]; simp

theorem find_map_set {α : Type} (l : List (String × α)) (tn : String) (c : α)
    (h : l.any (fun kv => kv.1 == tn) = true) :
    (l.map (fun kv => if kv.1 == tn then (tn, c) else kv)).find?
      (fun kv => kv.1 == tn) = some (tn, c) := by
  induction l with
  | nil => simp at h
  | cons kv rest ih =>
    rw [List.map_cons]
    by_cases hk : (kv.1 == tn) = true
    · rw [if_pos hk]
      exact List.find?_cons_of_pos _ (by simp)
    · rw [if_neg hk, List.find?_cons_of_neg _ (by simp [hk])]
      apply ih
      rcases List.any_eq_true.mp h with ⟨x, hx, hpx⟩
      rcases List.mem_cons.mp hx with rfl | hxr
      · exact absurd hpx hk
      · exact List.any_eq_true.mpr ⟨x, hxr, hpx⟩

theorem find_append_new {α : Type} (l : List (String × α)) (tn : String) (c : α)
    (h : l.any (fun kv => kv.1 == tn) = false) :
    (l ++ [(tn, c)]).find? (fun kv => kv.1 == tn) = some (tn, c) := by
  induction l with
  | nil => exact List.find?_cons_of_pos _ (by simp)
  | cons kv rest ih =>
    rw [List.any_cons, Bool.or_eq_false_iff] at h
    rw [List.cons_append, List.find?_cons_of_neg _ (by simp [h.1])]
    exact ih h.2

theorem class_from_typename_dictSet {α : Type} (reg : List (String × α))
    (tn : String) (c : α) :
    class_from_typename (dictSet reg tn c) tn = some c := by
  unfold class_from_typename dictSet
  by_cases hmem : reg.any (fun kv => kv.1 == tn) = true
  · rw [if_pos hmem, find_map_set reg tn c hmem]
    rfl
  · rw [if_neg hmem, find_append_new reg tn c (Bool.not_eq_true _ ▸ hmem)]
    rfl

/-- C2: calling `register(type_name, cls)` when `type_name` is already
registered and `override_existing` is false raises `KeyError` and leaves the
registry unchanged; with `override_existing=True` it replaces the prior
binding, so a subsequent `class_from_typename(type_name)` returns the newly
registered class. -/
theorem C2_register_conflict_and_override {α : Type} (reg : List (String × α))
    (tn : String) (c : α) (h : is_registered reg tn = true) :
    register reg tn c false = (some (.KeyError tn), reg) ∧
    (register reg tn c true).1 = Option.none ∧
    class_from_typename (register reg tn c true).2 tn = some c := by
  refine ⟨?_, ?_, ?_⟩
  · unfold is_registered at h
    simp [register, h]
  · simp [register]
  · simp [register, class_from_typename_dictSet]

/-- Witness for C2 on a concrete one-entry registry of `Nat` class handles. -/
theorem C2_register_conflict_and_override_witness :
    is_registered ([("m.A", 1)] : List (String × Nat)) "m.A" = true ∧
    (register ([("m.A", 1)] : List (String × Nat)) "m.A" 2 false =
        (some (.KeyError "m.A"), [("m.A", 1)]) ∧
      (register ([("m.A", 1)] : List (String × Nat)) "m.A" 2 true).1 = Option.none ∧
      class_from_typename (register ([("m.A", 1)] : List (String × Nat)) "m.A" 2 true).2
        "m.A" = some 2) :=
  ⟨by decide,
    C2_register_conflict_and_override ([("m.A", 1)] : List (String × Nat)) "m.A" 2
      (by decide)⟩

/-- C6 (counterexample): a concrete, non-opt-out subclass whose class body
defines `type_name = 'my_alias'` is registered under `'my_alias'`, not under
its fully-qualified dotted name `'mymod.MyClass'` — so lookups under the
fully-qualified name fail. -/
theorem C6_auto_register_counterexample :
    type_name_of customNamedCls = "mymod.MyClass" ∧
    class_from_typename (init_subclass [] customNamedCls) "mymod.MyClass"
      = Option.none ∧
    class_from_typename (init_subclass [] customNamedCls) "my_alias"
      = some customNamedCls := by
  refine ⟨rfl, by decide, by decide⟩

/-- C6 (amended): defining a concrete (non-abstract) subclass that does not
opt out via `auto_register` registers it at class-definition time under its
`type_name` class attribute when present, else under its fully-qualified
dotted name; the hook always passes `override_existing=True` (so it may
replace an existing entry), and a registry entry is otherwise replaced only
when override is explicitly permitted — without it, `register` raises and
leaves the registry unchanged. -/
theorem C6_auto_register (reg : List (String × ClsDef)) (c : ClsDef)
    (h1 : c.is_abstract = false) (h2 : c.auto_register = true) :
    init_subclass reg c =
      (register reg (c.type_name_attr.getD (type_name_of c)) c true).2 ∧
    class_from_typename (init_subclass reg c)
      (c.type_name_attr.getD (type_name_of c)) = some c ∧
    (∀ (tn : String) (d : ClsDef), is_registered reg tn = true →
      register reg tn d false = (some (.KeyError tn), reg)) := by
  refine ⟨by simp [init_subclass, h1, h2], ?_, ?_⟩
  · simp [init_subclass, h1, h2, register, class_from_typename_dictSet]
  · intro tn d h
    unfold is_registered at h
    simp [register, h]

/-- Witness for C6 on a non-empty concrete registry. -/
theorem C6_auto_register_witness :
    customNamedCls.is_abstract = false ∧ customNamedCls.auto_register = true ∧
    class_from_typename
      (init_subclass [("seen", ⟨false, true, Option.none, "m", "Seen"⟩)] customNamedCls)
      (customNamedCls.type_name_attr.getD (type_name_of customNamedCls))
      = some customNamedCls :=
  ⟨rfl, rfl,
    (C6_auto_register [("seen", ⟨false, true, Option.none, "m", "Seen"⟩)]
      customNamedCls rfl rfl).2.1⟩

/-- C3: `to_json` dispatches in exactly the fixed precedence order the spec
states — for every runtime value, including those matching several
categories, the chosen handler is the first matching category of the list
(primitives, convertible, tuple, list, dict, type, builtin function,
function, method), else the pluggable `TYPE_CONVERTER` fallback. -/
theorem C3_dispatch_order (v : RuntimeValue) :
    to_json_branch v = spec_first_match v := by
  obtain ⟨a, b, c, d, e, f, g, h, i⟩ := v
  cases a <;> cases b <;> cases c <;> cases d <;> cases e <;> cases f <;>
    cases g <;> cases h <;> cases i <;> rfl

/-- C4 (counterexample): deserializing a function mapping with embedded code
binds the reconstructed function in the deserializing module's global
namespace (`globals()` at the call site), which is not a fresh empty
namespace as the claim states. -/
theorem C4_function_from_json_counterexample :
    function_from_json fnJson =
      .ok (.constructed (marshal_loads (base64_decodebytes "BASE64BLOB"))
        .callerModuleGlobals .null) ∧
    GlobalsChoice.callerModuleGlobals ≠ GlobalsChoice.freshEmpty := by
  constructor
  · show function_from_json fnJson = _
    unfold function_from_json fnJson
    rw [show dictGetStr [(.str "_type", .str "function"), (.str "name", .str "foo"),
        (.str "code", .str "BASE64BLOB"), (.str "defaults", .null)] "name"
        = some (.str "foo") from rfl]
    rw [show dictGetStr [(.str "_type", .str "function"), (.str "name", .str "foo"),
        (.str "code", .str "BASE64BLOB"), (.str "defaults", .null)] "code"
        = some (.str "BASE64BLOB") from rfl]
    rw [show dictGetStr [(.str "_type", .str "function"), (.str "name", .str "foo"),
        (.str "code", .str "BASE64BLOB"), (.str "defaults", .null)] "defaults"
        = some .null from rfl]
    dsimp only
    rw [from_json_null]
    rfl
  · simp

/-- C4 (amended): for a mapping with type-identifier `"function"` carrying a
`"name"` entry: with a `"code"` entry present, `from_json` reconstructs the
function from the base64-decoded, unmarshalled code blob, binds it in the
deserializing module's global namespace (`globals()` — not a fresh empty
one), with defaults obtained by deserializing the `"defaults"` entry; with no
`"code"` entry it resolves the function by its dotted name. -/
theorem C4_function_from_json_behaviour (j : List (PyVal × PyVal)) (nameVal : PyVal)
    (hname : dictGetStr j "name" = some nameVal) :
    (∀ (codeText : String) (defaultsJson : PyVal),
        dictGetStr j "code" = some (.str codeText) →
        dictGetStr j "defaults" = some defaultsJson →
        function_from_json j =
          (from_json defaultsJson).bind (fun defaults =>
            Except.ok (.constructed (marshal_loads (base64_decodebytes codeText))
              .callerModuleGlobals defaults))) ∧
    (dictGetStr j "code" = Option.none → ∀ (n : String), nameVal = .str n →
        function_from_json j = .ok (.loadedByName n)) := by
  constructor
  · intro codeText defaultsJson hcode hdef
    unfold function_from_json
    rw [hname, hcode, hdef]
  · intro hcode n hn
    unfold function_from_json
    rw [hname, hcode, hn]

/-- Witness for C4 at `fnJson` (code branch) and at a code-less entry. -/
theorem C4_function_from_json_behaviour_witness :
    (dictGetStr fnJson "name" = some (.str "foo") ∧
      function_from_json fnJson =
        (from_json .null).bind (fun defaults =>
          Except.ok (.constructed (marshal_loads (base64_decodebytes "BASE64BLOB"))
            .callerModuleGlobals defaults))) ∧
    function_from_json [(.str "_type", .str "function"), (.str "name", .str "m.g")]
      = .ok (.loadedByName "m.g") :=
  ⟨⟨rfl, (C4_function_from_json_behaviour fnJson (.str "foo") rfl).1
      "BASE64BLOB" .null rfl rfl⟩,
    (C4_function_from_json_behaviour
      [(.str "_type", .str "function"), (.str "name", .str "m.g")]
      (.str "m.g") rfl).2 rfl "m.g" rfl⟩

/-- C5 (counterexample): `sigA` and `sigB` agree on callable_type, name,
qualname, module_name, args, kwonlyargs, varargs and varkw — every field the
claim lists — yet `Signature.__eq__` returns false, because it also compares
`return_value`, a field outside the claim's list. -/
theorem C5_sig_eq_counterexample :
    sigA.callable_type = sigB.callable_type ∧ sigA.name = sigB.name ∧
    sigA.qualname = sigB.qualname ∧ sigA.module_name = sigB.module_name ∧
    sigA.args = sigB.args ∧ sigA.kwonlyargs = sigB.kwonlyargs ∧
    sigA.varargs = sigB.varargs ∧ sigA.varkw = sigB.varkw ∧
    sig_eq sigA sigB = false := by
  decide

/-- C5 (amended): two Signatures are equal under `Signature.__eq__` iff
callable_type, name, qualname, module_name, the positional and keyword-only
argument lists, the var-positional and var-keyword slots (Arguments comparing
by name and value spec) *and the return-value spec* all match; the relation
is reflexive, so an object equal by identity is equal. -/
theorem C5_sig_eq (s t : Signature) :
    (sig_eq s t = true ↔
      (s.callable_type = t.callable_type ∧ s.name = t.name ∧
       s.qualname = t.qualname ∧ s.module_name = t.module_name ∧
       s.args = t.args ∧ s.kwonlyargs = t.kwonlyargs ∧
       s.varargs = t.varargs ∧ s.varkw = t.varkw ∧
       s.return_value = t.return_value)) ∧
    sig_eq s s = true := by
  constructor
  · simp [sig_eq, Bool.and_eq_true, beq_iff_eq, and_assoc]
  · simp [sig_eq]

theorem positional_decls_length (args : List Argument) (p : Bool) :
    (positional_decls args p).length = args.length := by
  induction args generalizing p with
  | nil => rfl
  | cons a rest ih => simp [positional_decls, ih]

theorem append_arg_forced (arg_name : String) (arg_spec : ValueSpec) :
    ∃ s, (append_arg arg_name arg_spec true "").1 =
      s ++ " = _default_" ++ arg_name := by
  cases h : arg_spec.annot with
  | none => exact ⟨"" ++ arg_name, by simp [append_arg, h]⟩
  | some a =>
    exact ⟨"" ++ arg_name ++ ": _annotation_" ++ arg_name, by simp [append_arg, h]⟩

theorem positional_decls_forced (args : List Argument) :
    ∀ (j : Nat), j < args.length →
      ∃ s, ((positional_decls args true).map Prod.fst).getD j "" =
        s ++ " = _default_" ++ (args.getD j anArg).name := by
  induction args with
  | nil => intro j hj; simp at hj
  | cons a rest ih =>
    intro j hj
    cases j with
    | zero =>
      obtain ⟨s, hs⟩ := append_arg_forced a.name a.value_spec
      exact ⟨s, by simpa [positional_decls] using hs⟩
    | succ j =>
      have hj2 : j < rest.length := by simpa using hj
      obtain ⟨s, hs⟩ := ih j hj2
      exact ⟨s, by simpa [positional_decls] using hs⟩

theorem positional_decls_after_default (args : List Argument) :
    ∀ (p : Bool) (i j : Nat), i < j → j < args.length →
      (args.getD i anArg).value_spec.has_default = true →
      ∃ s, ((positional_decls args p).map Prod.fst).getD j "" =
        s ++ " = _default_" ++ (args.getD j anArg).name := by
  induction args with
  | nil => intro p i j hij hj; simp at hj
  | cons a rest ih =>
    intro p i j hij hj hd
    cases j with
    | zero => omega
    | succ j =>
      have hj2 : j < rest.length := by simpa using hj
      cases i with
      | zero =>
        have ha : a.value_spec.has_default = true := by simpa [anArg] using hd
        obtain ⟨s, hs⟩ := positional_decls_forced rest j hj2
        refine ⟨s, ?_⟩
        simpa [positional_decls, ha] using hs
      | succ i =>
        have hd2 : (rest.getD i anArg).value_spec.has_default = true := by
          simpa using hd
        obtain ⟨s, hs⟩ :=
          ih (p || a.value_spec.has_default) i j (by omega) hj2 hd2
        exact ⟨s, by simpa [positional_decls] using hs⟩

/-- C7: (i) `make_function` on the signature of `def f(a, b=2, *c, d, **e)`
emits the parameter declarations `a, b = _default_b, *c, d, **e` in that
order — the introspectable parameter order `a, b=2, *c, d, **e` — and the
produced callable's name, module and qualified name equal the signature's
identity fields; (ii) for every signature, once a positional argument at
index `i` carries a default, every later positional argument at index `j` is
emitted with a ` = _default_<name>` default in the generated source, even
when its own spec has none. -/
theorem C7_make_function :
    ((make_function sigF ["return a"]).arg_decls =
        ["a", "b = _default_b", "*c", "d", "**e"] ∧
      (make_function sigF ["return a"]).fname = sigF.name ∧
      (make_function sigF ["return a"]).fmodule = sigF.module_name ∧
      (make_function sigF ["return a"]).fqualname = sigF.qualname) ∧
    (∀ (sig : Signature) (body : List String) (i j : Nat), i < j →
      j < sig.args.length →
      (sig.args.getD i anArg).value_spec.has_default = true →
      ∃ s, (make_function sig body).arg_decls.getD j "" =
        s ++ " = _default_" ++ (sig.args.getD j anArg).name) := by
  constructor
  · refine ⟨by decide, rfl, rfl, rfl⟩
  · intro sig body i j hij hj hd
    obtain ⟨s, hs⟩ := positional_decls_after_default sig.args false i j hij hj hd
    refine ⟨s, ?_⟩
    have hlen : j < ((positional_decls sig.args false).map Prod.fst).length := by
      rw [List.length_map, positional_decls_length]; exact hj
    calc (make_function sig body).arg_decls.getD j ""
        = ((positional_decls sig.args false).map Prod.fst).getD j "" := by
          simp only [make_function, List.map_append, List.append_assoc]
          rw [List.getD_append _ _ _ _ hlen]
      _ = s ++ " = _default_" ++ (sig.args.getD j anArg).name := hs

/-- Witness for C7: in `sigW`, argument `b` (index 1, no default of its own)
is emitted defaulted because argument `a` (index 0) has one. -/
theorem C7_make_function_witness :
    ((0 : Nat) < 1 ∧ 1 < sigW.args.length ∧
      (sigW.args.getD 0 anArg).value_spec.has_default = true) ∧
    ∃ s, (make_function sigW []).arg_decls.getD 1 "" =
      s ++ " = _default_" ++ (sigW.args.getD 1 anArg).name :=
  ⟨⟨by decide, by decide, by decide⟩,
    C7_make_function.2 sigW [] 0 1 (by decide) (by decide) (by decide)⟩

theorem getLastD_cons_cons (x y : String) (rest : List String) :
    (x :: y :: rest).getLastD "" = (y :: rest).getLastD "" := by
  simp [List.getLastD_eq_getLast?, List.getLast?_cons_cons]

theorem load_symbol_split_single (x : String) :
    load_symbol_split [x] = ([], [x]) := rfl

theorem spec_symbol_split_single (x : String) :
    spec_symbol_split [x] = ([], [x]) := by
  cases hx : capFirst x <;> simp [spec_symbol_split, module_end_pos, hx]

theorem module_end_pos_cons_lower (x : String) (l : List String)
    (hx : capFirst x = false) :
    module_end_pos (x :: l) = (module_end_pos l).map (· + 1) := by
  simp [module_end_pos, hx]

theorem module_end_pos_cons_upper (x : String) (l : List String)
    (hx : capFirst x = true) :
    module_end_pos (x :: l) = some 0 := by
  simp [module_end_pos, hx]

theorem load_symbol_split_cons_lower (x y : String) (rest : List String)
    (hx : capFirst x = false) :
    load_symbol_split (x :: y :: rest) =
      (x :: (load_symbol_split (y :: rest)).1, (load_symbol_split (y :: rest)).2) := by
  unfold load_symbol_split
  rw [show (x :: y :: rest).dropLast = x :: (y :: rest).dropLast from rfl,
    getLastD_cons_cons, module_end_pos_cons_lower x _ hx]
  cases hfi : module_end_pos ((y :: rest).dropLast) with
  | none => simp [hfi]
  | some k => simp [hfi, List.take_succ_cons, List.drop_succ_cons]

theorem spec_symbol_split_cons_lower (x y : String) (rest : List String)
    (hx : capFirst x = false) :
    spec_symbol_split (x :: y :: rest) =
      (x :: (spec_symbol_split (y :: rest)).1, (spec_symbol_split (y :: rest)).2) := by
  unfold spec_symbol_split
  rw [module_end_pos_cons_lower x _ hx]
  cases hfi : module_end_pos (y :: rest) with
  | none => rfl
  | some k => simp [hfi, List.take_succ_cons, List.drop_succ_cons]

theorem dropLast_append_getLastD (l : List String) (hl : l ≠ []) :
    l.dropLast ++ [l.getLastD ""] = l := by
  induction l with
  | nil => simp at hl
  | cons x rest ih =>
    cases rest with
    | nil => rfl
    | cons y rest2 =>
      rw [show (x :: y :: rest2).dropLast = x :: (y :: rest2).dropLast from rfl,
        getLastD_cons_cons, List.cons_append, ih (by simp)]

theorem load_symbol_split_cons_upper (x : String) (l : List String)
    (hx : capFirst x = true) (hl : l ≠ []) :
    load_symbol_split (x :: l) = ([], x :: l) := by
  obtain ⟨y, rest, rfl⟩ := List.exists_cons_of_ne_nil hl
  unfold load_symbol_split
  rw [show (x :: y :: rest).dropLast = x :: (y :: rest).dropLast from rfl,
    getLastD_cons_cons, module_end_pos_cons_upper x _ hx]
  dsimp only
  rw [List.take_zero, List.drop_zero, List.cons_append,
    dropLast_append_getLastD (y :: rest) (by simp)]

theorem spec_symbol_split_cons_upper (x : String) (l : List String)
    (hx : capFirst x = true) :
    spec_symbol_split (x :: l) = ([], x :: l) := by
  unfold spec_symbol_split
  rw [module_end_pos_cons_upper x _ hx]
  dsimp only
  rw [List.take_zero, List.drop_zero]

theorem load_symbol_split_eq_spec : ∀ (segs : List String), segs ≠ [] →
    load_symbol_split segs = spec_symbol_split segs
  | [], h => absurd rfl h
  | [x], _ => by rw [load_symbol_split_single, spec_symbol_split_single]
  | x :: y :: rest, _ => by
    cases hx : capFirst x with
    | true =>
      rw [load_symbol_split_cons_upper x (y :: rest) hx (by simp),
        spec_symbol_split_cons_upper x (y :: rest) hx]
    | false =>
      rw [load_symbol_split_cons_lower x y rest hx,
        spec_symbol_split_cons_lower x y rest hx,
        load_symbol_split_eq_spec (y :: rest) (by simp)]

/-- C8: for every dotted identifier (non-empty segments), the split
`_load_symbol` computes — symbol name peeled off last, then the first
capitalized segment of the remaining module path taken as the class-chain
boundary — coincides with the spec's description (scan all segments left to
right for the first upper-case-first one; segments before it are the module,
it and everything after it are walked as attributes, the final segment
included).  In particular the two agree when the final segment is
capitalized and when the module path itself contains an upper-case-first
segment, and so does the joined module name passed to
`importlib.import_module`. -/
theorem C8_load_symbol_split (segs : List String) (h1 : segs ≠ [])
    (h2 : ∀ s ∈ segs, s ≠ "") :
    load_symbol_split segs = spec_symbol_split segs ∧
    load_symbol_module_name segs =
      String.intercalate "." (spec_symbol_split segs).1 :=
  ⟨load_symbol_split_eq_spec segs h1,
   by rw [load_symbol_module_name, load_symbol_split_eq_spec segs h1]⟩

/-- Witness for C8 on `pyglove.core.typing.Signature.from_callable`
(capitalized segment inside the path) — the split puts `Signature` and
`from_callable` on the attribute chain. -/
theorem C8_load_symbol_split_witness :
    load_symbol_split ["pyglove", "core", "typing", "Signature", "from_callable"]
      = (["pyglove", "core", "typing"], ["Signature", "from_callable"]) ∧
    (load_symbol_split ["pyglove", "core", "typing", "Signature", "from_callable"]
        = spec_symbol_split ["pyglove", "core", "typing", "Signature", "from_callable"] ∧
      load_symbol_module_name ["pyglove", "core", "typing", "Signature", "from_callable"]
        = String.intercalate "."
            (spec_symbol_split
              ["pyglove", "core", "typing", "Signature", "from_callable"]).1) :=
  ⟨rfl,
    C8_load_symbol_split ["pyglove", "core", "typing", "Signature", "from_callable"]
      (by simp) (by simp)⟩

theorem from_jsonKvs_ok (l ps : List (PyVal × PyVal))
    (h : from_jsonKvs l = Except.ok ps) :
    ps.map Prod.fst = l.map Prod.fst ∧
    ∀ (j : Nat), j < ps.length →
      from_json ((l.getD j (PyVal.null, PyVal.null)).2) =
        Except.ok ((ps.getD j (PyVal.null, PyVal.null)).2) := by
  induction l generalizing ps with
  | nil =>
    rw [from_jsonKvs_nil] at h
    cases h
    exact ⟨rfl, by intro j hj; simp at hj⟩
  | cons kv rest ih =>
    obtain ⟨k, v⟩ := kv
    rw [from_jsonKvs_cons] at h
    cases hv : from_json v with
    | error e => rw [hv] at h; simp [Except.bind] at h
    | ok w =>
      rw [hv] at h
      cases hr : from_jsonKvs rest with
      | error e => rw [hr] at h; simp [Except.bind] at h
      | ok ws =>
        rw [hr] at h
        simp only [Except.bind] at h
        cases h
        obtain ⟨h1, h2⟩ := ih ws hr
        refine ⟨by simpa using h1, ?_⟩
        intro j hj
        cases j with
        | zero => simpa using hv
        | succ j =>
          have := h2 j (by simpa using hj)
          simpa using this

/-- C10: the default `from_json` classmethod ignores its keyword flags,
rejects non-dict inputs, and on a dict builds `cls(**init_args)` where
`init_args` has exactly the input's keys minus the reserved `'_type'` key
(in order), each mapped to the recursive deserialization of its value. -/
theorem C10_default_from_json (kw1 kw2 : List (String × PyVal)) (v : PyVal)
    (kvs ps : List (PyVal × PyVal)) :
    JSONConvertible_from_json kw1 v = JSONConvertible_from_json kw2 v ∧
    (v.is_dict = false → JSONConvertible_from_json kw1 v = .error .assertionFailed) ∧
    (from_jsonKvs (kvs.filter (fun kv => !keyIs kv.1 TYPE_NAME_KEY)) = Except.ok ps →
      JSONConvertible_from_json kw1 (.dict kvs) = .ok ⟨ps⟩ ∧
      ps.map Prod.fst = (kvs.filter (fun kv => !keyIs kv.1 TYPE_NAME_KEY)).map Prod.fst ∧
      ∀ (j : Nat), j < ps.length →
        from_json (((kvs.filter (fun kv => !keyIs kv.1 TYPE_NAME_KEY)).getD j
            (PyVal.null, PyVal.null)).2) =
          Except.ok ((ps.getD j (PyVal.null, PyVal.null)).2)) := by
  refine ⟨rfl, ?_, ?_⟩
  · intro hv
    cases v <;> first | rfl | simp [PyVal.is_dict] at hv
  · intro h
    obtain ⟨h1, h2⟩ := from_jsonKvs_ok _ ps h
    exact ⟨by simp [JSONConvertible_from_json, h, Except.bind], h1, h2⟩

/-- Witness for C10 on `{"_type": "X", "x": 5}` with a stray keyword flag. -/
theorem C10_default_from_json_witness :
    from_jsonKvs (([(.str "_type", .str "X"), (.str "x", .int 5)] :
        List (PyVal × PyVal)).filter (fun kv => !keyIs kv.1 TYPE_NAME_KEY))
      = Except.ok [(.str "x", .int 5)] ∧
    JSONConvertible_from_json [("allow_partial", .bool true)]
      (.dict [(.str "_type", .str "X"), (.str "x", .int 5)])
      = .ok ⟨[(.str "x", .int 5)]⟩ := by
  have hf : (([(.str "_type", .str "X"), (.str "x", .int 5)] :
      List (PyVal × PyVal)).filter (fun kv => !keyIs kv.1 TYPE_NAME_KEY))
      = [(.str "x", .int 5)] := rfl
  have hev : from_jsonKvs (([(.str "_type", .str "X"), (.str "x", .int 5)] :
      List (PyVal × PyVal)).filter (fun kv => !keyIs kv.1 TYPE_NAME_KEY))
      = Except.ok [(.str "x", .int 5)] := by
    rw [hf, from_jsonKvs_cons, from_json_int, from_jsonKvs_nil]
    rfl
  exact ⟨hev,
    ((C10_default_from_json [("allow_partial", .bool true)] []
      (.dict [(.str "_type", .str "X"), (.str "x", .int 5)])
      [(.str "_type", .str "X"), (.str "x", .int 5)]
      [(.str "x", .int 5)]).2.2 hev).1⟩
